import Mathlib

/-!
Shallow embedding of the tree-walking interpreter from
`crafting-rust-interpreters` (files `src/value.rs`, `src/environment.rs`,
`src/object.rs`, `src/execute.rs`).

The Rust interpreter threads mutable state through `Rc<RefCell<...>>`
handles: environment nodes, array buffers and record objects are all
heap-allocated and shared by reference.  The embedding makes that heap
explicit: a `Store` holds the environment nodes, the array buffers and
the objects, and a `Value` that wraps an array, an object or a closure
scope holds a numeric address into the store.  Copying a `Value` copies
the address (the handle), exactly as cloning the Rust `Value` clones the
`Rc`.  Allocation appends to the store, so the address of an enclosing
environment node is always strictly smaller than the address of the node
that links to it; the environment-chain walks recurse on that measure.

The evaluator in `execute.rs` can diverge (`while`, recursive calls), so
every evaluation function takes a fuel argument and decrements it on
entry; `.timeout` is the out-of-fuel artifact and is distinct from the
interpreter's own `Ok`/`Err` outcomes.  Machine integers: the language's
numbers are Rust `i32`; `wrap32` is the two's-complement wrap applied
where the Rust arithmetic wraps.  Host output (`println!`) has no
observable effect on evaluation results and is not part of the state.
-/

namespace Crafting

/-! ## AST (`parser.rs` `Node` / `Expr`, the variants `execute.rs` consumes) -/

mutual

inductive Node where
  | Print : Expr → Node
  | Fun : String → List String → Node → Node
  | Return : Expr → Node
  | While : Expr → Node → Node
  | If : Expr → Node → Node → Node
  | ExpressionStatement : Expr → Node
  | Statements : List Node → Node
  | Block : List Node → Node
  | Var : String → Option Expr → Node

inductive Expr where
  | Eq : Expr → Expr → Expr
  | Ne : Expr → Expr → Expr
  | Greater : Expr → Expr → Expr
  | GreaterEqual : Expr → Expr → Expr
  | Less : Expr → Expr → Expr
  | LessEqual : Expr → Expr → Expr
  | Plus : Expr → Expr → Expr
  | Minus : Expr → Expr → Expr
  | Multiply : Expr → Expr → Expr
  | Call : Expr → List Expr → Expr
  | MethodCall : Expr → Expr → List Expr → Expr
  | Array : List Expr → Expr
  | Object : List (String × Expr) → Expr
  | Identifier : String → Expr
  | Assign : String → Expr → Expr
  | Get : Expr → Expr → Expr
  | Set : Expr → Expr → Expr → Expr
  | Number : Int → Expr
  | String : String → Expr
  | Boolean : Bool → Expr

end

/-- The native (host-provided) callables: `array_push` from `execute.rs`
and `println` registered by `main.rs`.  The Rust type is a bare function
pointer `fn(Option<Value>, Vec<Value>) -> Value`; the embedding names the
two functions that exist and dispatches on the name. -/
inductive NativeFn where
  | array_push
  | println

/-- `Value` from `value.rs`.  `Function` stores the parameter names, the
body and the *address* of the captured environment node (the Rust field
is `Rc<RefCell<Environment>>`; cloning it shares the node).  `Array` and
`Object` store addresses of shared buffers in the store. -/
inductive Value where
  | Nothing : Value
  | Number : Int → Value
  | String : String → Value
  | Boolean : Bool → Value
  | NativeFunction : NativeFn → Value
  | Function : List String → Node → Nat → Value
  | Array : Nat → Value
  | Object : Nat → Value

/-- One environment node (`Environment` in `environment.rs`): a binding
table plus an optional address of the enclosing node.  The Rust
`HashMap<String, Value>` is modelled as an association list whose
`insert` overwrites in place, which preserves exactly the observable
`HashMap` operations used (`insert`, `get`, `contains_key`). -/
structure Environment where
  enclosing : Option Nat
  bindings : List (String × Value)

/-- The explicit heap: environment nodes, array buffers, record objects,
each addressed by its index.  Allocation appends. -/
structure Store where
  envs : List Environment
  arrays : List (List Value)
  objects : List (List (String × Value))

/-- The VM error channel from `execute.rs`: an ordinary failure message,
or the `return` control-transfer signal carrying a value. -/
inductive VMError where
  | Message : String → VMError
  | Return : Value → VMError

/-- Result of one evaluation step: the Rust `VMResult` (`Ok(value)` /
`Err(e)`) with the heap threaded through, plus the out-of-fuel artifact. -/
inductive VMOut where
  | ok : Value → Store → VMOut
  | err : VMError → Store → VMOut
  | timeout : VMOut

/-- Result of evaluating a list of expressions (the `collect()` over
argument or element lists in `execute.rs`): first error short-circuits. -/
inductive VMOutL where
  | ok : List Value → Store → VMOutL
  | err : VMError → Store → VMOutL
  | timeout : VMOutL

/-- Result of evaluating a record literal's field list. -/
inductive VMOutO where
  | ok : List (String × Value) → Store → VMOutO
  | err : VMError → Store → VMOutO
  | timeout : VMOutO

/-! ## Binding tables (the observable fragment of `HashMap<String, Value>`) -/

/-- `HashMap::get`. -/
def bindingsGet : List (String × Value) → String → Option Value
  | [], _ => none
  | (k, v) :: rest, name => if k = name then some v else bindingsGet rest name

/-- `HashMap::insert`: overwrite the binding if the key is present,
append it otherwise. -/
def bindingsInsert : List (String × Value) → String → Value → List (String × Value)
  | [], name, v => [(name, v)]
  | (k, w) :: rest, name, v =>
    if k = name then (name, v) :: rest else (k, w) :: bindingsInsert rest name v

/-- `HashMap::contains_key`. -/
def bindingsContains (bs : List (String × Value)) (name : String) : Bool :=
  (bindingsGet bs name).isSome

/-! ## Store operations -/

def Store.getEnv (s : Store) (a : Nat) : Option Environment := s.envs[a]?

def Store.setEnv (s : Store) (a : Nat) (e : Environment) : Store :=
  { s with envs := s.envs.set a e }

def Store.getArray (s : Store) (a : Nat) : List Value := (s.arrays[a]?).getD []

def Store.setArray (s : Store) (a : Nat) (l : List Value) : Store :=
  { s with arrays := s.arrays.set a l }

def Store.getObject (s : Store) (a : Nat) : List (String × Value) := (s.objects[a]?).getD []

def Store.setObject (s : Store) (a : Nat) (o : List (String × Value)) : Store :=
  { s with objects := s.objects.set a o }

/-- `Rc::new(RefCell::new(Environment::new_enclosing(..)))` /
`Environment::new()`: allocate a fresh, empty environment node and
return its address.  The enclosing address (when present) is the address
of an already-allocated node, hence smaller than the new address. -/
def allocEnv (s : Store) (enclosing : Option Nat) : Nat × Store :=
  (s.envs.length, { s with envs := s.envs ++ [⟨enclosing, []⟩] })

/-- `Rc::new(RefCell::new(vals))` for an array literal. -/
def allocArray (s : Store) (vals : List Value) : Nat × Store :=
  (s.arrays.length, { s with arrays := s.arrays ++ [vals] })

/-- `Rc::new(RefCell::new(object))` for a record literal. -/
def allocObject (s : Store) (fields : List (String × Value)) : Nat × Store :=
  (s.objects.length, { s with objects := s.objects ++ [fields] })

/-! ## Environment operations (`environment.rs`) -/

/-- `Environment::define`: insert/overwrite in the current node only. -/
def Environment.define (s : Store) (addr : Nat) (name : String) (v : Value) : Store :=
  match s.getEnv addr with
  | some frame => s.setEnv addr { frame with bindings := bindingsInsert frame.bindings name v }
  | none => s

/-- The chain walk of `Environment::get`.  The walk terminates because
every enclosing address points to an earlier-allocated node; the fuel
argument (always called with `addr + 1`, which the strictly decreasing
addresses make sufficient) renders that recursion structural, and its
exhaustion branch is unreachable for stores built by the evaluator. -/
def Environment.getAux (s : Store) : Nat → Nat → String → Except VMError Value
  | 0, _, _ => .error (.Message "invalid environment")
  | fuel + 1, addr, name =>
    match s.getEnv addr with
    | none => .error (.Message "invalid environment")
    | some frame =>
      match bindingsGet frame.bindings name with
      | some v => .ok v
      | none =>
        match frame.enclosing with
        | none => .error (.Message ("no such variable '" ++ name ++ "'"))
        | some parent => Environment.getAux s fuel parent name

/-- `Environment::get`: search the current node, then walk the enclosing
chain outward; fail with the unknown-name message when exhausted. -/
def Environment.get (s : Store) (addr : Nat) (name : String) : Except VMError Value :=
  Environment.getAux s (addr + 1) addr name

/-- The chain walk of `Environment::set`; fuel as in `getAux`. -/
def Environment.setAux (s : Store) : Nat → Nat → String → Value → Except VMError Store
  | 0, _, _, _ => .error (.Message "invalid environment")
  | fuel + 1, addr, name, v =>
    match s.getEnv addr with
    | none => .error (.Message "invalid environment")
    | some frame =>
      if bindingsContains frame.bindings name then
        .ok (s.setEnv addr { frame with bindings := bindingsInsert frame.bindings name v })
      else
        match frame.enclosing with
        | none => .error (.Message ("no such variable '" ++ name ++ "'"))
        | some parent => Environment.setAux s fuel parent name v

/-- `Environment::set`: mutate the binding in the first node (searching
outward) that already contains the name; never create a binding; fail
with the unknown-name message if no node in the chain contains it.  On
success the mutated store is returned (the Rust method returns
`Ok(value)`; the value is returned unchanged by the caller). -/
def Environment.set (s : Store) (addr : Nat) (name : String) (v : Value) : Except VMError Store :=
  Environment.setAux s (addr + 1) addr name v

/-- Does any node of the chain starting at `addr` contain `name`?  Chain
walk with fuel as in `Environment.getAux`. -/
def chainContainsAux (s : Store) : Nat → Nat → String → Bool
  | 0, _, _ => false
  | fuel + 1, addr, name =>
    match s.getEnv addr with
    | none => false
    | some frame =>
      bindingsContains frame.bindings name ||
        match frame.enclosing with
        | none => false
        | some parent => chainContainsAux s fuel parent name

/-- Does any node of the chain starting at `addr` contain `name`? -/
def chainContains (s : Store) (addr : Nat) (name : String) : Bool :=
  chainContainsAux s (addr + 1) addr name

/-- Well-formedness of the environment heap: every enclosing link points
to an earlier-allocated node.  Every store the evaluator builds satisfies
this (allocation appends, and a node's enclosing address exists before
the node does), and it is what makes the `addr + 1` fuel of the chain
walks sufficient. -/
def wfEnvs (s : Store) : Prop :=
  ∀ (i : Nat) (frame : Environment) (parent : Nat),
    s.envs[i]? = some frame → frame.enclosing = some parent → parent < i

/-! ## The evaluator (`execute.rs`) -/

/-- Two's-complement wrap to the `i32` range, the behaviour of Rust
release-mode arithmetic and of `as i32` casts. -/
def wrap32 (n : Int) : Int := (n + 2 ^ 31) % 2 ^ 32 - 2 ^ 31

/-- `Object::get` from `object.rs`. -/
def Object.get (fields : List (String × Value)) (name : String) : Except VMError Value :=
  match bindingsGet fields name with
  | some v => .ok v
  | none => .error (.Message ("no property named '" ++ name ++ "'"))

/-- `array_push` from `execute.rs`: when the receiver is an array,
append the arguments to its shared buffer; always return `Nothing`. -/
def array_push (s : Store) (base : Option Value) (args : List Value) : Value × Store :=
  match base with
  | some (.Array a) => (.Nothing, s.setArray a (s.getArray a ++ args))
  | _ => (.Nothing, s)

/-- Dispatch a native function pointer (`fun(base, args?)` in `call`).
`println` from `main.rs` writes to host output and returns `Nothing`;
host output does not affect evaluation state. -/
def callNative (s : Store) (f : NativeFn) (base : Option Value) (args : List Value) :
    Value × Store :=
  match f with
  | .array_push => array_push s base args
  | .println => (.Nothing, s)

/-- `get` from `execute.rs`: property/index access on an array or object
base. -/
def get (s : Store) (base : Value) (key : Value) : Except VMError Value :=
  match base with
  | .Array a =>
    match key with
    | .Number n =>
      if n < 0 then .error (.Message "negative array index")
      else
        match (s.getArray a)[n.toNat]? with
        | some v => .ok v
        | none => .error (.Message "array index of range")
    | .String str =>
      if str = "length" then .ok (.Number (wrap32 (Int.ofNat (s.getArray a).length)))
      else if str = "push" then .ok (.NativeFunction .array_push)
      else .error (.Message "invalid key")
    | _ => .error (.Message "invalid key")
  | .Object o =>
    match key with
    | .String str => Object.get (s.getObject o) str
    | _ => .error (.Message "value lookup only with string key")
  | _ => .error (.Message "invalid base")

/-- The parameter-binding loop of `call`:
`for (name, arg) in parameters.iter().zip(args) { local.define(name, arg) }`.
`zip` stops at the shorter list: surplus arguments are dropped and
surplus parameters are left unbound. -/
def defineParams (s : Store) (addr : Nat) : List String → List Value → Store
  | name :: ns, v :: vs => defineParams (Environment.define s addr name v) addr ns vs
  | _, _ => s

mutual

/-- `execute_node` from `execute.rs`: statement execution. -/
def execute_node (fuel : Nat) (node : Node) (env : Nat) (s : Store) : VMOut :=
  match fuel with
  | 0 => .timeout
  | fuel + 1 =>
    match node with
    | .Statements stmts => execute_nodes fuel stmts env s .Nothing
    | .ExpressionStatement e => execute_expr fuel e env s
    | .Block stmts =>
      match allocEnv s (some env) with
      | (block_scope, s1) => execute_nodes fuel stmts block_scope s1 .Nothing
    | .Var name init =>
      match init with
      | some e =>
        match execute_expr fuel e env s with
        | .ok v s1 => .ok v (Environment.define s1 env name v)
        | r => r
      | none => .ok .Nothing (Environment.define s env name .Nothing)
    | .Fun name params body =>
      .ok .Nothing (Environment.define s env name (.Function params body env))
    | .Return e =>
      match execute_expr fuel e env s with
      | .ok v s1 => .err (.Return v) s1
      | r => r
    | .Print e => execute_expr fuel e env s
    | .While cond block =>
      match execute_expr fuel cond env s with
      | .ok (.Boolean true) s1 =>
        match execute_node fuel block env s1 with
        | .ok _ s2 => execute_node fuel (.While cond block) env s2
        | r => r
      | .ok (.Boolean false) s1 => .ok .Nothing s1
      | .ok _ s1 => .err (.Message "while expects boolean operand") s1
      | r => r
    | .If cond thenN elseN =>
      match execute_expr fuel cond env s with
      | .ok (.Boolean true) s1 => execute_node fuel thenN env s1
      | .ok (.Boolean false) s1 => execute_node fuel elseN env s1
      | .ok _ s1 => .err (.Message "if expects boolean operand") s1
      | r => r
termination_by structural fuel

/-- The statement loop shared by `Node::Statements` and `Node::Block`:
run each statement in order, keeping the last value; the first error or
return signal short-circuits. -/
def execute_nodes (fuel : Nat) (stmts : List Node) (env : Nat) (s : Store) (last : Value) :
    VMOut :=
  match fuel with
  | 0 => .timeout
  | fuel + 1 =>
    match stmts with
    | [] => .ok last s
    | n :: rest =>
      match execute_node fuel n env s with
      | .ok v s1 => execute_nodes fuel rest env s1 v
      | r => r
termination_by structural fuel

/-- The shared shape of the nine binary-operator arms of `execute_expr`:
evaluate left then right, require two numbers, combine with `k`, and
fail with the operator's message otherwise. -/
def binEval (fuel : Nat) (l r : Expr) (env : Nat) (s : Store) (k : Int → Int → Value)
    (msg : String) : VMOut :=
  match fuel with
  | 0 => .timeout
  | fuel + 1 =>
    match execute_expr fuel l env s with
    | .ok left s1 =>
      match execute_expr fuel r env s1 with
      | .ok right s2 =>
        match left, right with
        | .Number a, .Number b => .ok (k a b) s2
        | _, _ => .err (.Message msg) s2
      | r => r
    | r => r
termination_by structural fuel

/-- `execute_expr` from `execute.rs`: expression evaluation. -/
def execute_expr (fuel : Nat) (expr : Expr) (env : Nat) (s : Store) : VMOut :=
  match fuel with
  | 0 => .timeout
  | fuel + 1 =>
    match expr with
    | .Eq l r => binEval fuel l r env s (fun a b => .Boolean (decide (a = b))) "Unexpected Eq operands"
    | .Ne l r => binEval fuel l r env s (fun a b => .Boolean (decide (a ≠ b))) "Unexpected Ne operands"
    | .Greater l r => binEval fuel l r env s (fun a b => .Boolean (decide (a > b))) "Unexpected > operands"
    | .GreaterEqual l r => binEval fuel l r env s (fun a b => .Boolean (decide (a ≥ b))) "Unexpected >= operands"
    | .Less l r => binEval fuel l r env s (fun a b => .Boolean (decide (a < b))) "Unexpected < operands"
    | .LessEqual l r => binEval fuel l r env s (fun a b => .Boolean (decide (a ≤ b))) "Unexpected <= operands"
    | .Plus l r => binEval fuel l r env s (fun a b => .Number (wrap32 (a + b))) "Unexpected Plus operands"
    | .Minus l r => binEval fuel l r env s (fun a b => .Number (wrap32 (a - b))) "Unexpected Minus operands"
    | .Multiply l r => binEval fuel l r env s (fun a b => .Number (wrap32 (a * b))) "Unexpected Multiply operands"
    | .Number n => .ok (.Number n) s
    | .String str => .ok (.String str) s
    | .Boolean b => .ok (.Boolean b) s
    | .Call c arguments =>
      match execute_expr fuel c env s with
      | .ok callee s1 => call fuel callee none arguments env s1
      | r => r
    | .MethodCall b k arguments =>
      match execute_expr fuel b env s with
      | .ok base s1 =>
        match execute_expr fuel k env s1 with
        | .ok key s2 =>
          match get s2 base key with
          | .ok callee => call fuel callee (some base) arguments env s2
          | .error e => .err e s2
        | r => r
      | r => r
    | .Array elems =>
      match execute_exprs fuel elems env s with
      | .ok vals s1 =>
        match allocArray s1 vals with
        | (addr, s2) => .ok (.Array addr) s2
      | .err e s1 => .err e s1
      | .timeout => .timeout
    | .Object fields =>
      match execute_fields fuel fields env s [] with
      | .ok obj s1 =>
        match allocObject s1 obj with
        | (addr, s2) => .ok (.Object addr) s2
      | .err e s1 => .err e s1
      | .timeout => .timeout
    | .Assign name e =>
      match execute_expr fuel e env s with
      | .ok v s1 =>
        match Environment.set s1 env name v with
        | .ok s2 => .ok v s2
        | .error er => .err er s1
      | r => r
    | .Identifier name =>
      match Environment.get s env name with
      | .ok v => .ok v s
      | .error er => .err er s
    | .Get b k =>
      match execute_expr fuel b env s with
      | .ok base s1 =>
        match execute_expr fuel k env s1 with
        | .ok key s2 =>
          match get s2 base key with
          | .ok v => .ok v s2
          | .error er => .err er s2
        | r => r
      | r => r
    | .Set b k v =>
      match execute_expr fuel b env s with
      | .ok base s1 =>
        match execute_expr fuel k env s1 with
        | .ok key s2 =>
          match execute_expr fuel v env s2 with
          | .ok value s3 =>
            match base, key with
            | .Array a, .Number n =>
              if 0 ≤ n then
                if n.toNat < (s3.getArray a).length then
                  .ok value (s3.setArray a ((s3.getArray a).set n.toNat value))
                else .err (.Message "array index of range") s3
              else .err (.Message "array only") s3
            | .Object o, .String str =>
              .ok value (s3.setObject o (bindingsInsert (s3.getObject o) str value))
            | _, _ => .err (.Message "array only") s3
          | r => r
        | r => r
      | r => r
termination_by structural fuel

/-- The `collect()` over an argument or element list: evaluate
left-to-right, short-circuiting at the first error. -/
def execute_exprs (fuel : Nat) (exprs : List Expr) (env : Nat) (s : Store) : VMOutL :=
  match fuel with
  | 0 => .timeout
  | fuel + 1 =>
    match exprs with
    | [] => .ok [] s
    | e :: rest =>
      match execute_expr fuel e env s with
      | .ok v s1 =>
        match execute_exprs fuel rest env s1 with
        | .ok vs s2 => .ok (v :: vs) s2
        | r => r
      | .err er s1 => .err er s1
      | .timeout => .timeout
termination_by structural fuel

/-- The field loop of a record literal: evaluate each field in
declaration order and insert it (later duplicates overwrite). -/
def execute_fields (fuel : Nat) (fields : List (String × Expr)) (env : Nat) (s : Store)
    (acc : List (String × Value)) : VMOutO :=
  match fuel with
  | 0 => .timeout
  | fuel + 1 =>
    match fields with
    | [] => .ok acc s
    | (name, e) :: rest =>
      match execute_expr fuel e env s with
      | .ok v s1 => execute_fields fuel rest env s1 (bindingsInsert acc name v)
      | .err er s1 => .err er s1
      | .timeout => .timeout
termination_by structural fuel

/-- `call` from `execute.rs`: the call protocol.  A native function gets
the optional receiver and the evaluated arguments.  A user function gets
a fresh environment node enclosing its captured scope, parameters bound
by position, and its body executed there: a `Return` signal is consumed
into the call's value, and normal completion yields `Nothing`. -/
def call (fuel : Nat) (callee : Value) (base : Option Value) (arguments : List Expr)
    (env : Nat) (s : Store) : VMOut :=
  match fuel with
  | 0 => .timeout
  | fuel + 1 =>
    match callee with
    | .NativeFunction f =>
      match execute_exprs fuel arguments env s with
      | .ok args s1 =>
        match callNative s1 f base args with
        | (v, s2) => .ok v s2
      | .err er s1 => .err er s1
      | .timeout => .timeout
    | .Function parameters body scope =>
      match execute_exprs fuel arguments env s with
      | .ok args s1 =>
        match allocEnv s1 (some scope) with
        | (localEnv, s2) =>
          match execute_node fuel body localEnv (defineParams s2 localEnv parameters args) with
          | .err (.Return v) s4 => .ok v s4
          | .err er s4 => .err er s4
          | .ok _ s4 => .ok .Nothing s4
          | .timeout => .timeout
      | .err er s1 => .err er s1
      | .timeout => .timeout
    | _ => .err (.Message "expected function callee") s

termination_by structural fuel

end

/-- The root store built by `main.rs`: one root environment node with
`println` defined, no arrays, no objects. -/
def rootStore : Store :=
  { envs := [⟨none, [("println", .NativeFunction .println)]⟩], arrays := [], objects := [] }

/-- The value of an evaluation outcome, when it completed normally. -/
def resultValue : VMOut → Option Value
  | .ok v _ => some v
  | _ => none

/-- The failure message of an evaluation outcome, when it failed with a
message. -/
def errorMessage : VMOut → Option String
  | .err (.Message m) _ => some m
  | _ => none


/-! ## Observation helpers and example programs used by the theorems -/

/-- The binding-key lists of every environment node, used to state that
an operation creates no binding. -/
def envKeys (st : Store) (i : Nat) : Option (List String) :=
  (st.envs[i]?).map fun f => f.bindings.map Prod.fst

/-- The binding of `name` in the node at address `a` alone, without the
outward walk: used to state that an unmatched parameter receives no
binding in the call's own node. -/
def envLookupLocal (st : Store) (a : Nat) (name : String) : Option Value :=
  match st.getEnv a with
  | some frame => bindingsGet frame.bindings name
  | none => none

/-- The testable-property program of C3: `var a; var b; a = [1,2,3];
b = a; b.push(4);` followed by reading `a.length`. -/
def sharedArrayProgramA : Node :=
  .Statements
    [ .Var "a" none
    , .Var "b" none
    , .ExpressionStatement (.Assign "a" (.Array [.Number 1, .Number 2, .Number 3]))
    , .ExpressionStatement (.Assign "b" (.Identifier "a"))
    , .ExpressionStatement (.MethodCall (.Identifier "b") (.String "push") [.Number 4])
    , .ExpressionStatement (.Get (.Identifier "a") (.String "length")) ]

/-- The same program reading `b.length` instead. -/
def sharedArrayProgramB : Node :=
  .Statements
    [ .Var "a" none
    , .Var "b" none
    , .ExpressionStatement (.Assign "a" (.Array [.Number 1, .Number 2, .Number 3]))
    , .ExpressionStatement (.Assign "b" (.Identifier "a"))
    , .ExpressionStatement (.MethodCall (.Identifier "b") (.String "push") [.Number 4])
    , .ExpressionStatement (.Get (.Identifier "b") (.String "length")) ]

/-- The closure-capture program of C2: `var x = n1; fun f() { return x; }
x = n2;` then `f()` — the assignment happens after the function is
defined and before it is called. -/
def closureCaptureProgram (n1 n2 : Int) : Node :=
  .Statements
    [ .Var "x" (some (.Number n1))
    , .Fun "f" [] (.Block [.Return (.Identifier "x")])
    , .ExpressionStatement (.Assign "x" (.Number n2))
    , .ExpressionStatement (.Call (.Identifier "f") []) ]

/-- The C10 counterexample program: `var p = 5; fun f(p) { return p; }`
then `f()` — the parameter `p` receives no argument, yet reading it does
not fail: the lookup falls through to the enclosing scope's `p`. -/
def shadowedParamProgram : Node :=
  .Statements
    [ .Var "p" (some (.Number 5))
    , .Fun "f" ["p"] (.Block [.Return (.Identifier "p")])
    , .ExpressionStatement (.Call (.Identifier "f") []) ]

/-- The C10 unknown-name program: `fun f(p) { return p; } f();` with no
`p` anywhere in the enclosing chain. -/
def unboundParamProgram : Node :=
  .Statements
    [ .Fun "f" ["p"] (.Block [.Return (.Identifier "p")])
    , .ExpressionStatement (.Call (.Identifier "f") []) ]

/-- The C10 surplus-argument program: `var a = [1]; fun f() {}` then
`f(a.push(9), a.push(8));` and finally `a.length`.  The function takes
no parameters, yet both surplus arguments are evaluated in the caller's
environment (each push lands in `a`), so the final length is 3. -/
def surplusArgsProgram : Node :=
  .Statements
    [ .Var "a" (some (.Array [.Number 1]))
    , .Fun "f" [] (.Block [])
    , .ExpressionStatement (.Call (.Identifier "f")
        [ .MethodCall (.Identifier "a") (.String "push") [.Number 9]
        , .MethodCall (.Identifier "a") (.String "push") [.Number 8] ])
    , .ExpressionStatement (.Get (.Identifier "a") (.String "length")) ]

/-- The C10 evaluation-order program: `var a = [1]; fun f(x, y) { return y; }`
then `f(a.push(9), a.length)`.  The second argument reads the length
after the first argument's push, so left-to-right evaluation returns 2;
right-to-left evaluation would return 1. -/
def leftToRightProgram : Node :=
  .Statements
    [ .Var "a" (some (.Array [.Number 1]))
    , .Fun "f" ["x", "y"] (.Block [.Return (.Identifier "y")])
    , .ExpressionStatement (.Call (.Identifier "f")
        [ .MethodCall (.Identifier "a") (.String "push") [.Number 9]
        , .Get (.Identifier "a") (.String "length") ]) ]

end Crafting


namespace Crafting

/-! ## Helper lemmas -/

theorem binEval_ok (fuel : Nat) (l r : Expr) (env : Nat) (s s1 s2 : Store)
    (k : Int → Int → Value) (msg : String) (a b : Int)
    (hl : execute_expr fuel l env s = .ok (.Number a) s1)
    (hr : execute_expr fuel r env s1 = .ok (.Number b) s2) :
    binEval (fuel + 1) l r env s k msg = .ok (k a b) s2 := by
  simp [binEval, hl, hr]

theorem binEval_mismatch (fuel : Nat) (l r : Expr) (env : Nat) (s s1 s2 : Store)
    (k : Int → Int → Value) (msg : String) (v1 v2 : Value)
    (hl : execute_expr fuel l env s = .ok v1 s1)
    (hr : execute_expr fuel r env s1 = .ok v2 s2)
    (hnn : ∀ a b : Int, ¬(v1 = .Number a ∧ v2 = .Number b)) :
    binEval (fuel + 1) l r env s k msg = .err (.Message msg) s2 := by
  cases v1 <;> cases v2 <;>
    first
    | (exact absurd ⟨rfl, rfl⟩ (hnn _ _))
    | (simp [binEval, hl, hr])

/-! ## Claim theorems -/

/-- C1: calling a user-defined Function runs the body in a fresh
environment node enclosing the captured scope; a raised Return signal
carrying v makes the call evaluate to v; normal completion makes it
evaluate to Nothing, whatever the body's last statement evaluated to. -/
theorem C1_function_call_protocol (fuel : Nat) (params : List String) (body : Node)
    (scope : Nat) (arguments : List Expr) (base : Option Value) (env localEnv : Nat)
    (s s1 s2 : Store) (args : List Value)
    (hargs : execute_exprs fuel arguments env s = .ok args s1)
    (halloc : allocEnv s1 (some scope) = (localEnv, s2)) :
    s2.getEnv localEnv = some ⟨some scope, []⟩
    ∧ (∀ (v : Value) (s3 : Store),
        execute_node fuel body localEnv (defineParams s2 localEnv params args)
          = .err (.Return v) s3 →
        call (fuel + 1) (.Function params body scope) base arguments env s = .ok v s3)
    ∧ (∀ (v : Value) (s3 : Store),
        execute_node fuel body localEnv (defineParams s2 localEnv params args) = .ok v s3 →
        call (fuel + 1) (.Function params body scope) base arguments env s
          = .ok .Nothing s3) := by
  obtain ⟨h1, h2⟩ := Prod.mk.injEq .. ▸ halloc
  subst h1 h2
  refine ⟨?_, ?_, ?_⟩
  · simp [Store.getEnv, allocEnv]
  · intro v s3 hbody
    simp [call, hargs, allocEnv, hbody]
  · intro v s3 hbody
    simp [call, hargs, allocEnv, hbody]

theorem C1_witness :
    call 8 (.Function [] (.Block [.ExpressionStatement (.Plus (.Number 1) (.Number 1))])
        0) none [] 0 rootStore
      = .ok .Nothing
          { envs := [⟨none, [("println", .NativeFunction .println)]⟩, ⟨some 0, []⟩,
              ⟨some 1, []⟩],
            arrays := [], objects := [] } := by
  exact (C1_function_call_protocol 7 [] _ 0 [] none 0 1 rootStore rootStore _ [] rfl
    rfl).2.2 (.Number 2)
    { envs := [⟨none, [("println", .NativeFunction .println)]⟩, ⟨some 0, []⟩, ⟨some 1, []⟩],
      arrays := [], objects := [] } rfl

/-- C3: Array values are shared by reference: after `a = [1,2,3]; b = a;
b.push(4);` both `a.length` and `b.length` evaluate to Number 4 — the
push through alias `b` is visible through alias `a`. -/
theorem C3_reference_semantics :
    resultValue (execute_node 20 sharedArrayProgramA 0 rootStore) = some (.Number 4)
    ∧ resultValue (execute_node 20 sharedArrayProgramB 0 rootStore) = some (.Number 4) :=
  ⟨rfl, rfl⟩

/-- C4 counterexample: a `return` at the top level of a program, outside
every function call, reaches the evaluator entry point (`execute_node`
on the root statement sequence, as invoked by `main.rs`) as the `Return`
variant of the error channel: the signal IS surfaced to the host caller,
refuting "it is never surfaced to the host caller of the evaluator's
entry point as a failure". -/
theorem C4_counterexample :
    execute_node 5 (.Statements [.Return (.Number 1)]) 0 rootStore
      = .err (.Return (.Number 1)) rootStore := rfl

/-- C4 (amended): the Return signal propagates outward unchanged through
statement sequences, blocks, while loops and if branches — none of them
swallows it — and is consumed at the nearest enclosing function-call
boundary; only a return outside any function call surfaces to the host. -/
theorem C4_return_signal_propagation (fuel : Nat) (env : Nat) (s s1 s2 : Store)
    (er : VMError) :
    (∀ (n : Node) (rest : List Node) (last : Value),
      execute_node fuel n env s = .err er s1 →
      execute_nodes (fuel + 1) (n :: rest) env s last = .err er s1)
    ∧ (∀ (stmts : List Node) (blockScope : Nat) (sb : Store),
        allocEnv s (some env) = (blockScope, sb) →
        execute_nodes fuel stmts blockScope sb .Nothing = .err er s1 →
        execute_node (fuel + 1) (.Block stmts) env s = .err er s1)
    ∧ (∀ (cond : Expr) (body : Node),
        execute_expr fuel cond env s = .ok (.Boolean true) s1 →
        execute_node fuel body env s1 = .err er s2 →
        execute_node (fuel + 1) (.While cond body) env s = .err er s2)
    ∧ (∀ (cond : Expr) (thenN elseN : Node),
        execute_expr fuel cond env s = .ok (.Boolean true) s1 →
        execute_node fuel thenN env s1 = .err er s2 →
        execute_node (fuel + 1) (.If cond thenN elseN) env s = .err er s2)
    ∧ (∀ (cond : Expr) (thenN elseN : Node),
        execute_expr fuel cond env s = .ok (.Boolean false) s1 →
        execute_node fuel elseN env s1 = .err er s2 →
        execute_node (fuel + 1) (.If cond thenN elseN) env s = .err er s2)
    ∧ (∀ (params : List String) (body : Node) (scope : Nat) (arguments : List Expr)
        (base : Option Value) (args : List Value) (localEnv : Nat) (sl : Store) (v : Value),
        execute_exprs fuel arguments env s = .ok args s1 →
        allocEnv s1 (some scope) = (localEnv, sl) →
        execute_node fuel body localEnv (defineParams sl localEnv params args)
          = .err (.Return v) s2 →
        call (fuel + 1) (.Function params body scope) base arguments env s = .ok v s2) := by
  refine ⟨?_, ?_, ?_, ?_, ?_, ?_⟩
  · intro n rest last hn
    simp [execute_nodes, hn]
  · intro stmts blockScope sb halloc hstmts
    obtain ⟨h1, h2⟩ := Prod.mk.injEq .. ▸ halloc
    subst h1 h2
    simpa [execute_node] using hstmts
  · intro cond body hcond hbody
    simp [execute_node, hcond, hbody]
  · intro cond thenN elseN hcond hthen
    simp [execute_node, hcond, hthen]
  · intro cond thenN elseN hcond helse
    simp [execute_node, hcond, helse]
  · intro params body scope arguments base args localEnv sl v hargs halloc hbody
    obtain ⟨h1, h2⟩ := Prod.mk.injEq .. ▸ halloc
    subst h1 h2
    simp [call, hargs, allocEnv, hbody]

theorem C4_witness :
    execute_node 4 (.While (.Boolean true) (.Return (.Number 7))) 0 rootStore
      = .err (.Return (.Number 7)) rootStore := by
  exact (C4_return_signal_propagation 3 0 rootStore rootStore rootStore
    (.Return (.Number 7))).2.2.1 (.Boolean true) (.Return (.Number 7)) rfl rfl

/-- C6: every binary operator requires two Number operands: the six
comparisons then yield the corresponding Boolean and Plus/Minus/Multiply
the corresponding (32-bit wrapped) Number; any other pairing of operand
values fails with the operator's type-mismatch message. -/
theorem C6_binary_operators (fuel : Nat) (l r : Expr) (env : Nat) (s s1 s2 : Store) :
    (∀ a b : Int,
      execute_expr fuel l env s = .ok (.Number a) s1 →
      execute_expr fuel r env s1 = .ok (.Number b) s2 →
        execute_expr (fuel + 2) (.Eq l r) env s = .ok (.Boolean (decide (a = b))) s2
      ∧ execute_expr (fuel + 2) (.Ne l r) env s = .ok (.Boolean (decide (a ≠ b))) s2
      ∧ execute_expr (fuel + 2) (.Greater l r) env s = .ok (.Boolean (decide (a > b))) s2
      ∧ execute_expr (fuel + 2) (.GreaterEqual l r) env s = .ok (.Boolean (decide (a ≥ b))) s2
      ∧ execute_expr (fuel + 2) (.Less l r) env s = .ok (.Boolean (decide (a < b))) s2
      ∧ execute_expr (fuel + 2) (.LessEqual l r) env s = .ok (.Boolean (decide (a ≤ b))) s2
      ∧ execute_expr (fuel + 2) (.Plus l r) env s = .ok (.Number (wrap32 (a + b))) s2
      ∧ execute_expr (fuel + 2) (.Minus l r) env s = .ok (.Number (wrap32 (a - b))) s2
      ∧ execute_expr (fuel + 2) (.Multiply l r) env s = .ok (.Number (wrap32 (a * b))) s2)
    ∧ (∀ v1 v2 : Value,
      execute_expr fuel l env s = .ok v1 s1 →
      execute_expr fuel r env s1 = .ok v2 s2 →
      (∀ a b : Int, ¬(v1 = .Number a ∧ v2 = .Number b)) →
        execute_expr (fuel + 2) (.Eq l r) env s = .err (.Message "Unexpected Eq operands") s2
      ∧ execute_expr (fuel + 2) (.Ne l r) env s = .err (.Message "Unexpected Ne operands") s2
      ∧ execute_expr (fuel + 2) (.Greater l r) env s = .err (.Message "Unexpected > operands") s2
      ∧ execute_expr (fuel + 2) (.GreaterEqual l r) env s
          = .err (.Message "Unexpected >= operands") s2
      ∧ execute_expr (fuel + 2) (.Less l r) env s = .err (.Message "Unexpected < operands") s2
      ∧ execute_expr (fuel + 2) (.LessEqual l r) env s
          = .err (.Message "Unexpected <= operands") s2
      ∧ execute_expr (fuel + 2) (.Plus l r) env s = .err (.Message "Unexpected Plus operands") s2
      ∧ execute_expr (fuel + 2) (.Minus l r) env s
          = .err (.Message "Unexpected Minus operands") s2
      ∧ execute_expr (fuel + 2) (.Multiply l r) env s
          = .err (.Message "Unexpected Multiply operands") s2) := by
  constructor
  · intro a b hl hr
    refine ⟨?_, ?_, ?_, ?_, ?_, ?_, ?_, ?_, ?_⟩ <;>
      (show execute_expr (fuel + 1 + 1) _ env s = _
       simp only [execute_expr]
       exact binEval_ok fuel l r env s s1 s2 _ _ a b hl hr)
  · intro v1 v2 hl hr hnn
    refine ⟨?_, ?_, ?_, ?_, ?_, ?_, ?_, ?_, ?_⟩ <;>
      (show execute_expr (fuel + 1 + 1) _ env s = _
       simp only [execute_expr]
       exact binEval_mismatch fuel l r env s s1 s2 _ _ v1 v2 hl hr hnn)

theorem C6_witness :
    execute_expr 5 (.Eq (.Plus (.Number 1) (.Number 1)) (.Number 2)) 0 rootStore
      = .ok (.Boolean true) rootStore
    ∧ execute_expr 5 (.Plus (.Number 1) (.Boolean true)) 0 rootStore
      = .err (.Message "Unexpected Plus operands") rootStore := by
  constructor
  · exact ((C6_binary_operators 3 (.Plus (.Number 1) (.Number 1)) (.Number 2) 0 rootStore
      rootStore rootStore).1 2 2 rfl rfl).1
  · have h := ((C6_binary_operators 3 (.Number 1) (.Boolean true) 0 rootStore rootStore
      rootStore).2 (.Number 1) (.Boolean true) rfl rfl ?hnn).2.2.2.2.2.2.1
    · exact h
    · rintro a b ⟨h1, h2⟩
      simp at h2

/-- C7: property/index Get on an Array base: a Number key n with
0 <= n < length yields the n-th element; n >= length fails with the
index-out-of-range error; n < 0 fails with the negative-index error; and
the String key "length" yields the element count as a Number. -/
theorem C7_array_get (s : Store) (a : Nat) :
    (∀ (n : Int) (v : Value), 0 ≤ n → (s.getArray a)[n.toNat]? = some v →
      get s (.Array a) (.Number n) = .ok v)
    ∧ (∀ n : Int, 0 ≤ n → (s.getArray a).length ≤ n.toNat →
      get s (.Array a) (.Number n) = .error (.Message "array index of range"))
    ∧ (∀ n : Int, n < 0 →
      get s (.Array a) (.Number n) = .error (.Message "negative array index"))
    ∧ get s (.Array a) (.String "length")
        = .ok (.Number (wrap32 (Int.ofNat (s.getArray a).length))) := by
  refine ⟨?_, ?_, ?_, rfl⟩
  · intro n v h0 hidx
    simp only [get]
    rw [if_neg (by omega)]
    simp [hidx]
  · intro n h0 hlen
    simp only [get]
    rw [if_neg (by omega)]
    simp [List.getElem?_eq_none hlen]
  · intro n hn
    simp only [get]
    rw [if_pos hn]

theorem C7_witness :
    get { envs := [], arrays := [[.Number 1, .Number 2]], objects := [] }
        (.Array 0) (.Number 5) = .error (.Message "array index of range")
    ∧ get { envs := [], arrays := [[.Number 1, .Number 2]], objects := [] }
        (.Array 0) (.Number (-1)) = .error (.Message "negative array index")
    ∧ get { envs := [], arrays := [[.Number 1, .Number 2]], objects := [] }
        (.Array 0) (.Number 0) = .ok (.Number 1)
    ∧ get { envs := [], arrays := [[.Number 1, .Number 2]], objects := [] }
        (.Array 0) (.String "length") = .ok (.Number 2) := by
  refine ⟨?_, ?_, ?_, ?_⟩
  · exact (C7_array_get _ 0).2.1 5 (by decide) (by decide)
  · exact (C7_array_get _ 0).2.2.1 (-1) (by decide)
  · exact (C7_array_get _ 0).1 0 (.Number 1) (by decide) rfl
  · exact (C7_array_get _ 0).2.2.2

/-- C8: on an Array value, Get with the String key "push" yields the
`array_push` NativeFunction; called through the method-call protocol
with that array as receiver, it appends the evaluated call arguments in
order to that same array and returns Nothing. -/
theorem C8_array_push (s : Store) (a : Nat) :
    get s (.Array a) (.String "push") = .ok (.NativeFunction .array_push)
    ∧ (∀ (fuel : Nat) (arguments : List Expr) (env : Nat) (s1 : Store) (args : List Value),
        execute_exprs fuel arguments env s = .ok args s1 →
        call (fuel + 1) (.NativeFunction .array_push) (some (.Array a)) arguments env s
          = .ok .Nothing (s1.setArray a (s1.getArray a ++ args))) := by
  refine ⟨rfl, ?_⟩
  intro fuel arguments env s1 args hargs
  simp [call, hargs, callNative, array_push]

theorem C8_witness :
    get { envs := [], arrays := [[.Number 1, .Number 2, .Number 3]], objects := [] }
        (.Array 0) (.String "push") = .ok (.NativeFunction .array_push)
    ∧ call 3 (.NativeFunction .array_push) (some (.Array 0)) [.Number 4] 0
        { envs := [], arrays := [[.Number 1, .Number 2, .Number 3]], objects := [] }
      = .ok .Nothing
          { envs := [], arrays := [[.Number 1, .Number 2, .Number 3, .Number 4]],
            objects := [] } := by
  refine ⟨(C8_array_push _ 0).1, ?_⟩
  exact (C8_array_push _ 0).2 2 [.Number 4] 0 _ [.Number 4] rfl

/-- C9 counterexample: a Set on an Array base with a negative Number
index fails with the generic "array only" invalid-access message, not
with the "negative array index" (InvalidIndex) error that Get produces
for the same index — refuting "failing for a negative index with the
same error conditions as Get (InvalidIndex)". -/
theorem C9_counterexample :
    errorMessage (execute_expr 5 (.Set (.Array [.Number 1, .Number 2]) (.Number (-1))
        (.Number 5)) 0 rootStore) = some "array only"
    ∧ errorMessage (execute_expr 5 (.Get (.Array [.Number 1, .Number 2]) (.Number (-1)))
        0 rootStore) = some "negative array index"
    ∧ ("array only" : String) ≠ "negative array index" :=
  ⟨rfl, rfl, by decide⟩

/-- C9 (amended): index/property Set with an Array base and Number key
replaces the existing element in place and yields the assigned value,
fails with the index-out-of-range error when the index does not already
exist (no auto-extension), and fails for a negative index with the
generic "array only" invalid-access error (not Get's InvalidIndex
error); with a Record base and String key it upserts the field and
yields the assigned value. -/
theorem C9_set_semantics (fuel : Nat) (b k v : Expr) (env : Nat) (s s1 s2 s3 : Store)
    (value : Value) :
    (∀ (a : Nat) (n : Int),
      execute_expr fuel b env s = .ok (.Array a) s1 →
      execute_expr fuel k env s1 = .ok (.Number n) s2 →
      execute_expr fuel v env s2 = .ok value s3 →
        (0 ≤ n → n.toNat < (s3.getArray a).length →
          execute_expr (fuel + 1) (.Set b k v) env s
            = .ok value (s3.setArray a ((s3.getArray a).set n.toNat value)))
        ∧ (0 ≤ n → (s3.getArray a).length ≤ n.toNat →
          execute_expr (fuel + 1) (.Set b k v) env s
            = .err (.Message "array index of range") s3)
        ∧ (n < 0 →
          execute_expr (fuel + 1) (.Set b k v) env s = .err (.Message "array only") s3))
    ∧ (∀ (o : Nat) (str : String),
      execute_expr fuel b env s = .ok (.Object o) s1 →
      execute_expr fuel k env s1 = .ok (.String str) s2 →
      execute_expr fuel v env s2 = .ok value s3 →
        execute_expr (fuel + 1) (.Set b k v) env s
          = .ok value (s3.setObject o (bindingsInsert (s3.getObject o) str value))) := by
  constructor
  · intro a n hb hk hv
    refine ⟨?_, ?_, ?_⟩
    · intro h0 hlt
      simp [execute_expr, hb, hk, hv, h0, hlt]
    · intro h0 hlen
      simp [execute_expr, hb, hk, hv, h0]
      omega
    · intro hn
      simp [execute_expr, hb, hk, hv, (by omega : ¬(0 ≤ n))]
      intro h0
      exact absurd h0 (by omega)
  · intro o str hb hk hv
    simp [execute_expr, hb, hk, hv]

theorem C9_witness :
    execute_expr 6 (.Set (.Array [.Number 1, .Number 2]) (.Number 0) (.Number 5)) 0 rootStore
      = .ok (.Number 5)
          { envs := [⟨none, [("println", .NativeFunction .println)]⟩],
            arrays := [[.Number 5, .Number 2]], objects := [] } := by
  have hb : execute_expr 5 (.Array [.Number 1, .Number 2]) 0 rootStore
      = .ok (.Array 0)
          { envs := [⟨none, [("println", .NativeFunction .println)]⟩],
            arrays := [[.Number 1, .Number 2]], objects := [] } := rfl
  have hk : execute_expr 5 (.Number 0) 0
      { envs := [⟨none, [("println", .NativeFunction .println)]⟩],
        arrays := [[.Number 1, .Number 2]], objects := [] }
      = .ok (.Number 0)
          { envs := [⟨none, [("println", .NativeFunction .println)]⟩],
            arrays := [[.Number 1, .Number 2]], objects := [] } := rfl
  have hv : execute_expr 5 (.Number 5) 0
      { envs := [⟨none, [("println", .NativeFunction .println)]⟩],
        arrays := [[.Number 1, .Number 2]], objects := [] }
      = .ok (.Number 5)
          { envs := [⟨none, [("println", .NativeFunction .println)]⟩],
            arrays := [[.Number 1, .Number 2]], objects := [] } := rfl
  exact ((C9_set_semantics 5 (.Array [.Number 1, .Number 2]) (.Number 0) (.Number 5) 0
    rootStore _ _ _ (.Number 5)).1 0 0 hb hk hv).1 (by decide) (by decide)

/-! ## Environment-chain helper lemmas -/

/-- Looking a name up after an insert: the inserted key answers with the
new value, others are unchanged. -/
theorem bindingsGet_insert (name k : String) (v : Value) :
    ∀ bs : List (String × Value),
      bindingsGet (bindingsInsert bs name v) k
        = if name = k then some v else bindingsGet bs k := by
  intro bs
  induction bs with
  | nil => simp [bindingsInsert, bindingsGet]
  | cons hd tl ih =>
    obtain ⟨hk, hv⟩ := hd
    simp only [bindingsInsert]
    by_cases h1 : hk = name
    · rw [if_pos h1]
      by_cases h2 : name = k
      · simp [bindingsGet, h2]
      · have h3 : ¬(hk = k) := fun hh => h2 (h1 ▸ hh)
        simp [bindingsGet, h2, h3]
    · rw [if_neg h1]
      simp only [bindingsGet]
      by_cases h2 : hk = k
      · have h3 : ¬(name = k) := fun hh => h1 (h2.trans hh.symm)
        simp [h2, h3]
      · simp [h2, ih]

/-- Inserting a key that is already bound preserves the key list. -/
theorem bindingsInsert_keys_of_contains (name : String) (v : Value) :
    ∀ bs : List (String × Value), bindingsContains bs name = true →
      (bindingsInsert bs name v).map Prod.fst = bs.map Prod.fst := by
  intro bs
  induction bs with
  | nil => simp [bindingsContains, bindingsGet]
  | cons hd tl ih =>
    obtain ⟨hk, hv⟩ := hd
    intro hcont
    by_cases h1 : hk = name
    · subst h1
      simp [bindingsInsert]
    · simp only [bindingsContains, bindingsGet, if_neg h1] at hcont
      simp [bindingsInsert, h1, ih hcont]

theorem getEnv_some_lt (st : Store) (a : Nat) (frame : Environment)
    (h : st.getEnv a = some frame) : a < st.envs.length := by
  simp only [Store.getEnv] at h
  exact (List.getElem?_eq_some_iff.mp h).1

/-- Walking fuel does not matter as long as it exceeds the address:
enclosing links strictly decrease in a well-formed store. -/
theorem setAux_congr (st : Store) (hwf : wfEnvs st) (name : String) (v : Value) :
    ∀ (addr f1 f2 : Nat), addr < f1 → addr < f2 →
      Environment.setAux st f1 addr name v = Environment.setAux st f2 addr name v := by
  intro addr
  induction addr using Nat.strong_induction_on with
  | _ addr ih =>
    intro f1 f2 h1 h2
    obtain ⟨g1, rfl⟩ : ∃ g, f1 = g + 1 := ⟨f1 - 1, by omega⟩
    obtain ⟨g2, rfl⟩ : ∃ g, f2 = g + 1 := ⟨f2 - 1, by omega⟩
    simp only [Environment.setAux]
    cases hframe : st.getEnv addr with
    | none => rfl
    | some frame =>
      by_cases hcont : bindingsContains frame.bindings name
      · simp [hcont]
      · cases hencl : frame.enclosing with
        | none => simp [hcont, hencl]
        | some parent =>
          have hpa : parent < addr :=
            hwf addr frame parent (by simpa [Store.getEnv] using hframe) hencl
          simp only [hcont, Bool.false_eq_true, if_false, hencl]
          exact ih parent hpa g1 g2 (by omega) (by omega)

/-- Same fuel-irrelevance for `Environment.getAux`. -/
theorem getAux_congr (st : Store) (hwf : wfEnvs st) (name : String) :
    ∀ (addr f1 f2 : Nat), addr < f1 → addr < f2 →
      Environment.getAux st f1 addr name = Environment.getAux st f2 addr name := by
  intro addr
  induction addr using Nat.strong_induction_on with
  | _ addr ih =>
    intro f1 f2 h1 h2
    obtain ⟨g1, rfl⟩ : ∃ g, f1 = g + 1 := ⟨f1 - 1, by omega⟩
    obtain ⟨g2, rfl⟩ : ∃ g, f2 = g + 1 := ⟨f2 - 1, by omega⟩
    simp only [Environment.getAux]
    cases hframe : st.getEnv addr with
    | none => rfl
    | some frame =>
      cases hget : bindingsGet frame.bindings name with
      | some v => simp [hget]
      | none =>
        cases hencl : frame.enclosing with
        | none => simp [hget, hencl]
        | some parent =>
          have hpa : parent < addr :=
            hwf addr frame parent (by simpa [Store.getEnv] using hframe) hencl
          simp only [hget, hencl]
          exact ih parent hpa g1 g2 (by omega) (by omega)

/-- When no node of the chain binds the name, the outward `set` walk
ends in the unknown-name failure. -/
theorem setAux_not_found (st : Store) (hwf : wfEnvs st) (name : String) (v : Value) :
    ∀ (f addr : Nat), addr < f → addr < st.envs.length →
      chainContainsAux st f addr name = false →
      Environment.setAux st f addr name v
        = .error (.Message ("no such variable '" ++ name ++ "'")) := by
  intro f
  induction f with
  | zero => intro addr h; omega
  | succ g ih =>
    intro addr hlt hlen hchain
    cases hframe : st.getEnv addr with
    | none =>
      exfalso
      simp only [Store.getEnv] at hframe
      exact absurd (List.getElem?_eq_none_iff.mp hframe) (by omega)
    | some frame =>
      simp only [chainContainsAux, hframe, Bool.or_eq_false_iff] at hchain
      obtain ⟨hcont, hrest⟩ := hchain
      simp only [Environment.setAux, hframe, hcont, Bool.false_eq_true, if_false]
      cases hencl : frame.enclosing with
      | none => simp [hencl]
      | some parent =>
        rw [hencl] at hrest
        have hpa : parent < addr :=
          hwf addr frame parent (by simpa [Store.getEnv] using hframe) hencl
        simp only [hencl]
        exact ih parent (by omega) (by omega) hrest

/-- When no node of the chain binds the name, the outward `get` walk
ends in the unknown-name failure. -/
theorem getAux_not_found (st : Store) (hwf : wfEnvs st) (name : String) :
    ∀ (f addr : Nat), addr < f → addr < st.envs.length →
      chainContainsAux st f addr name = false →
      Environment.getAux st f addr name
        = .error (.Message ("no such variable '" ++ name ++ "'")) := by
  intro f
  induction f with
  | zero => intro addr h; omega
  | succ g ih =>
    intro addr hlt hlen hchain
    cases hframe : st.getEnv addr with
    | none =>
      exfalso
      simp only [Store.getEnv] at hframe
      exact absurd (List.getElem?_eq_none_iff.mp hframe) (by omega)
    | some frame =>
      simp only [chainContainsAux, hframe, Bool.or_eq_false_iff] at hchain
      obtain ⟨hcont, hrest⟩ := hchain
      have hget : bindingsGet frame.bindings name = none := by
        simpa [bindingsContains] using hcont
      simp only [Environment.getAux, hframe, hget]
      cases hencl : frame.enclosing with
      | none => simp [hencl]
      | some parent =>
        rw [hencl] at hrest
        have hpa : parent < addr :=
          hwf addr frame parent (by simpa [Store.getEnv] using hframe) hencl
        simp only [hencl]
        exact ih parent (by omega) (by omega) hrest


/-- A successful `set` walk changes no node's key list: assignment
never creates (or removes) a binding. -/
theorem setAux_keys (st : Store) (name : String) (v : Value) :
    ∀ (f addr : Nat) (st2 : Store), Environment.setAux st f addr name v = .ok st2 →
      ∀ i : Nat, envKeys st2 i = envKeys st i := by
  intro f
  induction f with
  | zero => intro addr st2 h; simp [Environment.setAux] at h
  | succ g ih =>
    intro addr st2 h i
    cases hframe : st.getEnv addr with
    | none => simp [Environment.setAux, hframe] at h
    | some frame =>
      by_cases hcont : bindingsContains frame.bindings name
      · simp only [Environment.setAux, hframe, hcont, if_true] at h
        have hlen : addr < st.envs.length := getEnv_some_lt st addr frame hframe
        injection h with h
        subst h
        by_cases hia : i = addr
        · subst hia
          simp only [envKeys, Store.setEnv]
          rw [List.getElem?_set_eq_of_lt _ hlen]
          have hi : st.envs[i]? = some frame := by simpa [Store.getEnv] using hframe
          rw [hi]
          simp [bindingsInsert_keys_of_contains name v frame.bindings hcont]
        · simp only [envKeys, Store.setEnv]
          rw [List.getElem?_set_ne (fun hh => hia hh.symm)]
      · simp only [Environment.setAux, hframe, hcont, Bool.false_eq_true, if_false] at h
        cases hencl : frame.enclosing with
        | none => rw [hencl] at h; simp at h
        | some parent =>
          rw [hencl] at h
          exact ih parent st2 h i

/-- `Environment::define` with a different key leaves a name's local
binding unchanged. -/
theorem define_lookupLocal_ne (s : Store) (a : Nat) (k name : String) (v : Value)
    (h : k ≠ name) :
    envLookupLocal (Environment.define s a k v) a name = envLookupLocal s a name := by
  cases hframe : s.getEnv a with
  | none => simp [envLookupLocal, Environment.define, hframe]
  | some frame =>
    have hlen : a < s.envs.length := getEnv_some_lt s a frame hframe
    have hi : s.envs[a]? = some frame := by simpa [Store.getEnv] using hframe
    simp only [envLookupLocal, Environment.define, Store.setEnv, Store.getEnv, hi]
    rw [List.getElem?_set_eq_of_lt _ hlen]
    simp [bindingsGet_insert, h]

theorem wfEnvs_rootStore : wfEnvs rootStore := by
  intro i frame parent h1 h2
  cases i with
  | zero =>
    simp [rootStore] at h1
    rw [← h1] at h2
    simp at h2
  | succ n => simp [rootStore] at h1

/-- C5: assignment evaluates the right-hand side first, then mutates the
binding in the first environment node (searching from the current node
outward) that already contains the name and yields the assigned value;
no new binding is ever created by assignment, and when no node in the
chain contains the name the assignment fails with the unknown-name
error. -/
theorem C5_assignment (name : String) :
    (∀ (fuel : Nat) (e : Expr) (env : Nat) (s s1 : Store) (v : Value),
      execute_expr fuel e env s = .ok v s1 →
        (∀ s2 : Store, Environment.set s1 env name v = .ok s2 →
          execute_expr (fuel + 1) (.Assign name e) env s = .ok v s2)
        ∧ (∀ er : VMError, Environment.set s1 env name v = .error er →
          execute_expr (fuel + 1) (.Assign name e) env s = .err er s1))
    ∧ (∀ (fuel : Nat) (e : Expr) (env : Nat) (s s1 : Store) (er : VMError),
      execute_expr fuel e env s = .err er s1 →
      execute_expr (fuel + 1) (.Assign name e) env s = .err er s1)
    ∧ (∀ (st : Store) (addr : Nat) (frame : Environment) (v : Value),
      st.getEnv addr = some frame → bindingsContains frame.bindings name = true →
      Environment.set st addr name v
        = .ok (st.setEnv addr { frame with bindings := bindingsInsert frame.bindings name v }))
    ∧ (∀ (st : Store) (addr parent : Nat) (frame : Environment) (v : Value), wfEnvs st →
      st.getEnv addr = some frame → bindingsContains frame.bindings name = false →
      frame.enclosing = some parent →
      Environment.set st addr name v = Environment.set st parent name v)
    ∧ (∀ (st st2 : Store) (addr : Nat) (v : Value) (i : Nat),
      Environment.set st addr name v = .ok st2 → envKeys st2 i = envKeys st i)
    ∧ (∀ (st : Store) (addr : Nat) (v : Value), wfEnvs st → addr < st.envs.length →
      chainContains st addr name = false →
      Environment.set st addr name v
        = .error (.Message ("no such variable '" ++ name ++ "'"))) := by
  refine ⟨?_, ?_, ?_, ?_, ?_, ?_⟩
  · intro fuel e env s s1 v he
    constructor
    · intro s2 hset
      simp [execute_expr, he, hset]
    · intro er hset
      simp [execute_expr, he, hset]
  · intro fuel e env s s1 er he
    simp [execute_expr, he]
  · intro st addr frame v hframe hcont
    simp [Environment.set, Environment.setAux, hframe, hcont]
  · intro st addr parent frame v hwf hframe hcont hencl
    have hpa : parent < addr :=
      hwf addr frame parent (by simpa [Store.getEnv] using hframe) hencl
    simp only [Environment.set, Environment.setAux, hframe, hcont, Bool.false_eq_true,
      if_false, hencl]
    exact setAux_congr st hwf name v parent addr (parent + 1) hpa (by omega)
  · intro st st2 addr v i hset
    exact setAux_keys st name v (addr + 1) addr st2 hset i
  · intro st addr v hwf hlen hchain
    exact setAux_not_found st hwf name v (addr + 1) addr (by omega) hlen hchain

theorem C5_witness :
    wfEnvs rootStore
    ∧ chainContains rootStore 0 "y" = false
    ∧ Environment.set rootStore 0 "y" (.Number 1)
        = .error (.Message "no such variable 'y'") := by
  refine ⟨wfEnvs_rootStore, rfl, ?_⟩
  exact (C5_assignment "y").2.2.2.2.2 rootStore 0 (.Number 1) wfEnvs_rootStore
    (by simp [rootStore]) rfl

/-- C2: a function declaration captures the current environment node by
shared reference (the `Function` value stores the node's address, not a
copy of its bindings), so a call made after a later mutation of a
captured variable observes the mutated value: for every pair of values,
the capture program returns the value assigned after the definition. -/
theorem C2_closure_capture :
    (∀ (fuel : Nat) (name : String) (params : List String) (body : Node) (env : Nat)
      (s : Store),
      execute_node (fuel + 1) (.Fun name params body) env s
        = .ok .Nothing (Environment.define s env name (.Function params body env)))
    ∧ (∀ n1 n2 : Int,
      resultValue (execute_node 20 (closureCaptureProgram n1 n2) 0 rootStore)
        = some (.Number n2)) :=
  ⟨fun _ _ _ _ _ _ => rfl, fun _ _ => rfl⟩

/-- C10 counterexample: calling `f` with fewer arguments than parameters
and reading the unmatched parameter yields the enclosing scope's binding
(Number 5) rather than failing with UnknownName — refuting "reading such
a parameter inside the body fails with UnknownName". -/
theorem C10_counterexample :
    resultValue (execute_node 20 shadowedParamProgram 0 rootStore) = some (.Number 5) := rfl

/-- C10 (amended): when argument and parameter counts differ, all
argument expressions are still evaluated left-to-right in the caller's
environment, surplus trailing arguments are discarded after evaluation,
and unmatched trailing parameters receive no binding in the call's
environment node, so reading one falls back to the function's captured
chain, and fails with UnknownName exactly when no node of that chain
binds the name. -/
theorem C10_argument_mismatch :
    (∀ (fuel : Nat) (params : List String) (body : Node) (scope : Nat)
      (arguments : List Expr) (base : Option Value) (env localEnv : Nat)
      (s s1 s2 : Store) (args : List Value),
      execute_exprs fuel arguments env s = .ok args s1 →
      allocEnv s1 (some scope) = (localEnv, s2) →
      call (fuel + 1) (.Function params body scope) base arguments env s
        = (match execute_node fuel body localEnv (defineParams s2 localEnv params args) with
           | .err (.Return v) s4 => .ok v s4
           | .err er s4 => .err er s4
           | .ok _ s4 => .ok .Nothing s4
           | .timeout => .timeout))
    ∧ (∀ (fuel : Nat) (e : Expr) (rest : List Expr) (env : Nat) (s s1 s2 : Store)
      (v : Value) (vs : List Value),
      execute_expr fuel e env s = .ok v s1 →
      execute_exprs fuel rest env s1 = .ok vs s2 →
      execute_exprs (fuel + 1) (e :: rest) env s = .ok (v :: vs) s2)
    ∧ (∀ (fuel : Nat) (e : Expr) (rest : List Expr) (env : Nat) (s s1 : Store)
      (er : VMError),
      execute_expr fuel e env s = .err er s1 →
      execute_exprs (fuel + 1) (e :: rest) env s = .err er s1)
    ∧ (∀ (s : Store) (a : Nat) (params : List String) (args : List Value),
      params.length ≤ args.length →
      defineParams s a params args = defineParams s a params (args.take params.length))
    ∧ (∀ (s : Store) (a : Nat) (params : List String) (args : List Value) (name : String),
      name ∉ (params.zip args).map Prod.fst →
      envLookupLocal (defineParams s a params args) a name = envLookupLocal s a name)
    ∧ (∀ (st : Store) (addr parent : Nat) (frame : Environment) (name : String), wfEnvs st →
      st.getEnv addr = some frame → bindingsGet frame.bindings name = none →
      frame.enclosing = some parent →
      Environment.get st addr name = Environment.get st parent name)
    ∧ (∀ (st : Store) (addr : Nat) (name : String), wfEnvs st → addr < st.envs.length →
      chainContains st addr name = false →
      Environment.get st addr name
        = .error (.Message ("no such variable '" ++ name ++ "'")))
    ∧ errorMessage (execute_node 20 unboundParamProgram 0 rootStore)
        = some "no such variable 'p'"
    ∧ resultValue (execute_node 20 surplusArgsProgram 0 rootStore) = some (.Number 3)
    ∧ resultValue (execute_node 20 leftToRightProgram 0 rootStore) = some (.Number 2) := by
  refine ⟨?_, ?_, ?_, ?_, ?_, ?_, ?_, rfl, rfl, rfl⟩
  · intro fuel params body scope arguments base env localEnv s s1 s2 args hargs halloc
    obtain ⟨h1, h2⟩ := Prod.mk.injEq .. ▸ halloc
    subst h1 h2
    simp [call, hargs, allocEnv]
  · intro fuel e rest env s s1 s2 v vs he hrest
    simp [execute_exprs, he, hrest]
  · intro fuel e rest env s s1 er he
    simp [execute_exprs, he]
  · intro s a params
    induction params generalizing s with
    | nil => intro args h; rfl
    | cons p ps ih =>
      intro args h
      cases args with
      | nil => simp at h
      | cons v vs =>
        simp only [List.length_cons, List.take_succ_cons]
        exact ih (Environment.define s a p v) vs (by simpa using h)
  · intro s a params
    induction params generalizing s with
    | nil => intro args name h; rfl
    | cons p ps ih =>
      intro args name h
      cases args with
      | nil => rfl
      | cons v vs =>
        simp only [List.zip_cons_cons, List.map_cons, List.mem_cons, not_or] at h
        obtain ⟨h1, h2⟩ := h
        rw [defineParams]
        rw [ih (Environment.define s a p v) vs name h2]
        exact define_lookupLocal_ne s a p name v (fun hh => h1 hh.symm)
  · intro st addr parent frame name hwf hframe hget hencl
    have hpa : parent < addr :=
      hwf addr frame parent (by simpa [Store.getEnv] using hframe) hencl
    simp only [Environment.get, Environment.getAux, hframe, hget, hencl]
    exact getAux_congr st hwf name parent addr (parent + 1) hpa (by omega)
  · intro st addr name hwf hlen hchain
    exact getAux_not_found st hwf name (addr + 1) addr (by omega) hlen hchain

theorem C10_witness :
    call 4 (.Function [] (.Block []) 0) none [.Number 7, .Number 8] 0 rootStore
      = .ok .Nothing
          { envs := [⟨none, [("println", .NativeFunction .println)]⟩, ⟨some 0, []⟩,
              ⟨some 1, []⟩],
            arrays := [], objects := [] }
    ∧ defineParams rootStore 0 ["x"] [.Number 1, .Number 2]
      = defineParams rootStore 0 ["x"] [.Number 1]
    ∧ Environment.get rootStore 0 "q" = .error (.Message "no such variable 'q'") := by
  refine ⟨?_, ?_, ?_⟩
  · have h := C10_argument_mismatch.1 3 [] (.Block []) 0 [.Number 7, .Number 8] none 0 1
      rootStore rootStore
      { envs := [⟨none, [("println", .NativeFunction .println)]⟩, ⟨some 0, []⟩],
        arrays := [], objects := [] }
      [.Number 7, .Number 8] rfl rfl
    exact h.trans rfl
  · exact C10_argument_mismatch.2.2.2.1 rootStore 0 ["x"] [.Number 1, .Number 2] (by decide)
  · exact C10_argument_mismatch.2.2.2.2.2.2.1 rootStore 0 "q" wfEnvs_rootStore
      (by simp [rootStore]) rfl

end Crafting
